import Mathlib

/-!
Shallow embedding of the request-validation service in src/index.js.

Strings are modelled as List Char (JavaScript string indices are UTF-16 code
units; every input appearing in this development lies in the Basic Multilingual
Plane, where code units and code points coincide).  JavaScript regular
expressions are embedded as a small regex datatype RE together with an
executable nondeterministic matcher; each entry of INJECTION_PATTERNS below is
a term-level transcription of the corresponding regex literal of the source.
Numeric confidences are modelled as rationals: every confidence the source
produces is an exact two-decimal value (see the comment on
injectionConfidence), so the rational denotation is exact.
-/

namespace AiService

/-- The character class matched by the JavaScript regex escape \\s, which is
also the set of characters trimmed by String.prototype.trim: space, tab,
line feed, vertical tab, form feed, carriage return, NBSP, Ogham space mark,
the U+2000..U+200A spaces, line and paragraph separators, narrow NBSP,
medium mathematical space, ideographic space, and the BOM. -/
def isJsWs (c : Char) : Bool :=
  c == ' ' || c == '\t' || c == '\n' || c == '\x0b' || c == '\x0c' || c == '\r' ||
  c.val == 0x00A0 || c.val == 0x1680 || (0x2000 ≤ c.val && c.val ≤ 0x200A) ||
  c.val == 0x2028 || c.val == 0x2029 || c.val == 0x202F || c.val == 0x205F ||
  c.val == 0x3000 || c.val == 0xFEFF

/-- Leading-whitespace removal (first half of String.prototype.trim). -/
def dropLeading (s : List Char) : List Char := s.dropWhile isJsWs

/-- Trailing-whitespace removal (second half of String.prototype.trim). -/
def dropTrailing (s : List Char) : List Char :=
  (s.reverse.dropWhile isJsWs).reverse

/-- JavaScript String.prototype.trim. -/
def trimJs (s : List Char) : List Char := dropTrailing (dropLeading s)

/-- A JavaScript value as far as the handler can observe it: either a string
or some non-string value of which only truthiness matters. -/
inductive JValue where
  | vStr (s : List Char)
  | vOther (truthy : Bool)
  deriving DecidableEq

/-- JavaScript truthiness of a JValue; a string is falsy exactly when empty. -/
def truthy : JValue → Bool
  | .vStr s => !s.isEmpty
  | .vOther t => t

/-! ## The regex engine

The injection patterns of the source use only: case-insensitive literal words,
one-or-more whitespace (the regex \s+), zero-or-more whitespace (\s*),
grouping with ? (optionality) and | (alternation).  RE captures exactly this
fragment; matchEnds r s computes the list of suffixes of s remaining after
some match of r at the start of s (full nondeterministic semantics, so
existsMatch agrees with RegExp.prototype.test: some substring matches). -/

inductive RE where
  | eps
  | str (w : List Char)
  | ws1
  | ws0
  | seq (a b : RE)
  | alt (a b : RE)
  | opt (a : RE)

/-- Case-insensitive test that the pattern word w starts the text s
(the i flag of the source regexes; all pattern words are ASCII). -/
def ciStarts : List Char → List Char → Bool
  | [], _ => true
  | _ :: _, [] => false
  | p :: ps, c :: cs => (c.toLower == p.toLower) && ciStarts ps cs

/-- All suffixes obtainable by consuming one or more leading whitespace
characters (the nondeterministic readings of \s+). -/
def wsTails : List Char → List (List Char)
  | [] => []
  | c :: t => if isJsWs c then t :: wsTails t else []

/-- Suffixes of s left over after a match of r starting at the head of s. -/
def matchEnds : RE → List Char → List (List Char)
  | .eps, s => [s]
  | .str w, s => if ciStarts w s then [s.drop w.length] else []
  | .ws1, s => wsTails s
  | .ws0, s => s :: wsTails s
  | .seq a b, s => (matchEnds a s).flatMap (fun t => matchEnds b t)
  | .alt a b, s => matchEnds a s ++ matchEnds b s
  | .opt a, s => s :: matchEnds a s

/-- RegExp.prototype.test: does r match starting at some position of s? -/
def existsMatch (r : RE) : List Char → Bool
  | [] => !(matchEnds r []).isEmpty
  | c :: t => !(matchEnds r (c :: t)).isEmpty || existsMatch r t

/-- A case-insensitive literal word. -/
def lit (s : String) : RE := RE.str s.data

/-- Concatenation of a list of regex pieces. -/
def cat (l : List RE) : RE := l.foldr RE.seq RE.eps

/-- Alternation r | x1 | x2 | ... -/
def altList : RE → List RE → RE
  | r, [] => r
  | r, x :: xs => RE.alt r (altList x xs)

/-! ## The pattern catalog (INJECTION_PATTERNS of the source, in order) -/

/-- ignore\s+(all\s+)?(previous|prior|above)\s+instructions? -/
def p01 : RE := cat [lit "ignore", .ws1, .opt (cat [lit "all", .ws1]),
  altList (lit "previous") [lit "prior", lit "above"], .ws1,
  lit "instruction", .opt (lit "s")]

/-- forget\s+(your|all)\s+(instructions?|rules?|training) -/
def p02 : RE := cat [lit "forget", .ws1, altList (lit "your") [lit "all"], .ws1,
  altList (cat [lit "instruction", .opt (lit "s")])
    [cat [lit "rule", .opt (lit "s")], lit "training"]]

/-- override\s+(system|safety|all)\s*(rules?|instructions?|prompts?)? -/
def p03 : RE := cat [lit "override", .ws1,
  altList (lit "system") [lit "safety", lit "all"], .ws0,
  .opt (altList (cat [lit "rule", .opt (lit "s")])
    [cat [lit "instruction", .opt (lit "s")], cat [lit "prompt", .opt (lit "s")]])]

/-- disregard\s+(all\s+)?(previous|prior)\s+instructions? -/
def p04 : RE := cat [lit "disregard", .ws1, .opt (cat [lit "all", .ws1]),
  altList (lit "previous") [lit "prior"], .ws1, lit "instruction", .opt (lit "s")]

/-- you\s+are\s+now\s+in\s+developer\s+mode -/
def p05 : RE := cat [lit "you", .ws1, lit "are", .ws1, lit "now", .ws1,
  lit "in", .ws1, lit "developer", .ws1, lit "mode"]

/-- reveal\s+(your\s+)?(system\s+)?prompt -/
def p06 : RE := cat [lit "reveal", .ws1, .opt (cat [lit "your", .ws1]),
  .opt (cat [lit "system", .ws1]), lit "prompt"]

/-- show\s+(me\s+)?(your\s+)?(system\s+)?prompt -/
def p07 : RE := cat [lit "show", .ws1, .opt (cat [lit "me", .ws1]),
  .opt (cat [lit "your", .ws1]), .opt (cat [lit "system", .ws1]), lit "prompt"]

/-- what\s+(are\s+)?(your|the)\s+(system\s+)?(instructions?|prompt) -/
def p08 : RE := cat [lit "what", .ws1, .opt (cat [lit "are", .ws1]),
  altList (lit "your") [lit "the"], .ws1, .opt (cat [lit "system", .ws1]),
  altList (cat [lit "instruction", .opt (lit "s")]) [lit "prompt"]]

/-- print\s+(your\s+)?(system\s+)?prompt -/
def p09 : RE := cat [lit "print", .ws1, .opt (cat [lit "your", .ws1]),
  .opt (cat [lit "system", .ws1]), lit "prompt"]

/-- act\s+as\s+(if\s+)?(you\s+are\s+)?(an?\s+)?(unrestricted|jailbroken|evil|dan) -/
def p10 : RE := cat [lit "act", .ws1, lit "as", .ws1, .opt (cat [lit "if", .ws1]),
  .opt (cat [lit "you", .ws1, lit "are", .ws1]),
  .opt (cat [lit "a", .opt (lit "n"), .ws1]),
  altList (lit "unrestricted") [lit "jailbroken", lit "evil", lit "dan"]]

/-- pretend\s+(you\s+are|to\s+be)\s+(an?\s+)?(ai\s+without|unrestricted) -/
def p11 : RE := cat [lit "pretend", .ws1,
  altList (cat [lit "you", .ws1, lit "are"]) [cat [lit "to", .ws1, lit "be"]], .ws1,
  .opt (cat [lit "a", .opt (lit "n"), .ws1]),
  altList (cat [lit "ai", .ws1, lit "without"]) [lit "unrestricted"]]

/-- roleplay\s+as\s+(an?\s+)?(unrestricted|evil|unfiltered) -/
def p12 : RE := cat [lit "roleplay", .ws1, lit "as", .ws1,
  .opt (cat [lit "a", .opt (lit "n"), .ws1]),
  altList (lit "unrestricted") [lit "evil", lit "unfiltered"]]

/-- you\s+are\s+now\s+(an?\s+)?(unrestricted|evil|jailbroken|dan) -/
def p13 : RE := cat [lit "you", .ws1, lit "are", .ws1, lit "now", .ws1,
  .opt (cat [lit "a", .opt (lit "n"), .ws1]),
  altList (lit "unrestricted") [lit "evil", lit "jailbroken", lit "dan"]]

/-- jailbreak -/
def p14 : RE := lit "jailbreak"

/-- do\s+anything\s+now -/
def p15 : RE := cat [lit "do", .ws1, lit "anything", .ws1, lit "now"]

/-- ignore\s+(all\s+)?safety -/
def p16 : RE := cat [lit "ignore", .ws1, .opt (cat [lit "all", .ws1]), lit "safety"]

/-- bypass\s+(all\s+)?(filters?|restrictions?|safety) -/
def p17 : RE := cat [lit "bypass", .ws1, .opt (cat [lit "all", .ws1]),
  altList (cat [lit "filter", .opt (lit "s")])
    [cat [lit "restriction", .opt (lit "s")], lit "safety"]]

/-- The INJECTION_PATTERNS array of the source, in source order. -/
def INJECTION_PATTERNS : List RE :=
  [p01, p02, p03, p04, p05, p06, p07, p08, p09, p10, p11, p12, p13, p14, p15, p16, p17]

/-- The number of distinct catalog patterns matching the input: the length of
the matchedPatterns array built by the scan loop of validateInput (each
pattern is tested once, so each contributes at most one entry). -/
def countMatches (s : List Char) : ℕ :=
  (INJECTION_PATTERNS.filter (fun p => existsMatch p s)).length

/-- A validation decision: the object literal returned by validateInput. -/
structure Decision where
  blocked : Bool
  reason : String
  confidence : ℚ
  deriving DecidableEq

/-- Confidence for m matched patterns.  The source computes
parseFloat(Math.min(0.7 + m * 0.1, 1.0).toFixed(2)).  For every m ≥ 1 the
IEEE-754 evaluation of 0.7 + m * 0.1 rounds under toFixed(2) to exactly the
two-decimal value of the rational 7/10 + m/10 (m = 1 gives the double
0.7999999999999999..., printed "0.80"; m = 2 gives "0.90"; m ≥ 3 is clamped
to 1.0 by Math.min), so the rational min (7/10 + m/10) 1 is the exact
denotation of the produced decimal. -/
def injectionConfidence (m : ℕ) : ℚ := min (7/10 + (m : ℚ) * (1/10)) 1

/-- The validateInput function of the source.  For a string s the guard
"!input || typeof input !== 'string'" reduces to s being empty (the empty
string is falsy); non-string values fail the typeof test regardless of
truthiness. -/
def validateInput : JValue → Decision
  | .vOther _ => ⟨true, "Invalid input format", 1⟩
  | .vStr s =>
    if s = [] then ⟨true, "Invalid input format", 1⟩
    else if (trimJs s).length = 0 then ⟨true, "Empty input", 1⟩
    else if s.length > 5000 then ⟨true, "Input exceeds maximum length", 1⟩
    else if 0 < countMatches s then
      ⟨true, "Prompt injection attempt detected", injectionConfidence (countMatches s)⟩
    else ⟨false, "Input passed all security checks", 95/100⟩

/-! ## The rate limiter -/

/-- The per-identity record stored in rateLimitMap: count and firstRequest
(the window start).  Timestamps are integers (Date.now() milliseconds). -/
structure RateRecord where
  count : ℕ
  firstRequest : ℤ
  deriving DecidableEq

/-- RATE_LIMIT of the source: max requests per window. -/
def RATE_LIMIT : ℕ := 10

/-- RATE_WINDOW of the source: window duration in milliseconds. -/
def RATE_WINDOW : ℤ := 60000

/-- checkRateLimit of the source, for one identity: given the current time and
the identity's map entry (none when absent), returns the limited flag and the
record stored in the map after the call.  In the limited branch the source
leaves the map untouched, which the second component reproduces by returning
the existing record unchanged. -/
def checkRateLimit (now : ℤ) : Option RateRecord → Bool × RateRecord
  | none => (false, ⟨1, now⟩)
  | some r =>
    if now - r.firstRequest > RATE_WINDOW then (false, ⟨1, now⟩)
    else if r.count ≥ RATE_LIMIT then (true, r)
    else (false, ⟨r.count + 1, r.firstRequest⟩)

/-- One call of checkRateLimit viewed as a transition on the stored state. -/
def rateStep (st : Option RateRecord) (t : ℤ) : Option RateRecord :=
  some (checkRateLimit t st).2

/-- The identity's stored record after a sequence of calls at the given
times, starting from an absent record (fresh identity). -/
def runTrace (ts : List ℤ) : Option RateRecord := ts.foldl rateStep none

/-! ## The output sanitizer

Each of the four RegExp.prototype.replace passes of sanitizeOutput is
embedded as a matcher: given a suffix of the text it returns the remainder
after the match when the regex matches starting exactly there.  All four
regexes are deterministic once anchored at a start position (greedy runs are
bounded by a mandatory terminator character excluded from the run), so a
single-result matcher captures the JavaScript semantics.  replaceAll then
reproduces the left-to-right global replace with the empty string: emitted
characters are never rescanned, and scanning resumes right after a match. -/

/-- The JavaScript regex escape \w: [A-Za-z0-9_]. -/
def isWordChar (c : Char) : Bool :=
  (('a' ≤ c && c ≤ 'z') || ('A' ≤ c && c ≤ 'Z') || ('0' ≤ c && c ≤ '9') || c == '_')

/-- Line terminators not matched by the JavaScript regex dot. -/
def isLineTerm (c : Char) : Bool :=
  c == '\n' || c == '\r' || c.val == 0x2028 || c.val == 0x2029

/-- The loop [^<]*(?:(?!<\/script>)<[^<]*)* <\/script>: consume characters,
treating every < that does not open a case-insensitive closing tag as
content, until the first closing tag, whose remainder is returned. -/
def scriptScan : List Char → Option (List Char)
  | [] => none
  | c :: t =>
    if c == '<' then
      if ciStarts "/script>".data t then some (t.drop 8) else scriptScan t
    else scriptScan t

/-- Matcher for <script\b[^<]*(?:(?!<\/script>)<[^<]*)*<\/script> (flags gi):
a case-insensitive "<script" followed by a word boundary, everything up to
and including the nearest case-insensitive closing tag. -/
def scriptMatch (s : List Char) : Option (List Char) :=
  if ciStarts "<script".data s then
    match s.drop 7 with
    | [] => none
    | c :: t => if isWordChar c then none else scriptScan (c :: t)
  else none

/-- Maximal run of word characters, at least one: the remainder after \w+.
The next regex token is the literal =, not a word character, so the greedy
maximal run is the unique viable reading. -/
def dropWord1 : List Char → Option (List Char)
  | [] => none
  | c :: t =>
    if isWordChar c then
      some (match dropWord1 t with | some r => r | none => t)
    else none

/-- The tail [^"]*" : consume up to and including the next double quote. -/
def scanToQuote : List Char → Option (List Char)
  | [] => none
  | c :: t => if c == '\"' then some t else scanToQuote t

/-- Matcher for on\w+="[^"]*" (flags gi): inline event-handler attributes. -/
def onHandlerMatch : List Char → Option (List Char)
  | c1 :: c2 :: rest =>
    if c1.toLower == 'o' && c2.toLower == 'n' then
      match dropWord1 rest with
      | some ('=' :: '\"' :: r) => scanToQuote r
      | _ => none
    else none
  | _ => none

/-- Matcher for the literal javascript: (flags gi). -/
def jsUrlMatch (s : List Char) : Option (List Char) :=
  if ciStarts "javascript:".data s then some (s.drop 11) else none

/-- The run [^>]*> : consume up to and including the next >. -/
def scanToGt : List Char → Option (List Char)
  | [] => none
  | c :: t => if c == '>' then some t else scanToGt t

/-- The lazy tail .*?<\/iframe>: stop at the first case-insensitive closing
tag; the dot does not cross a line terminator. -/
def iframeScan : List Char → Option (List Char)
  | [] => none
  | c :: t =>
    if ciStarts "</iframe>".data (c :: t) then some ((c :: t).drop 9)
    else if isLineTerm c then none
    else iframeScan t

/-- Matcher for <iframe[^>]*>.*?<\/iframe> (flags gi). -/
def iframeMatch (s : List Char) : Option (List Char) :=
  if ciStarts "<iframe".data s then
    match scanToGt (s.drop 7) with
    | some rest => iframeScan rest
    | none => none
  else none

/-- Fueled scanner for a global replace with the empty string: at each
position, either remove a match (continuing right after it, as the g flag
does) or emit the character.  Every matcher above consumes at least one
character, so fuel equal to the text length never runs out. -/
def replaceAllAux (m : List Char → Option (List Char)) : ℕ → List Char → List Char
  | 0, s => s
  | _ + 1, [] => []
  | fuel + 1, c :: t =>
    match m (c :: t) with
    | some rest => replaceAllAux m fuel rest
    | none => c :: replaceAllAux m fuel t

/-- text.replace(regex, "") with the g flag, for the matcher m. -/
def replaceAll (m : List Char → Option (List Char)) (s : List Char) : List Char :=
  replaceAllAux m s.length s

/-- The sanitizeOutput function of the source.  The argument is optional to
model an absent (undefined/null) argument; the !text guard also maps the
empty string to the empty string.  The four replaces run in source order,
followed by trim. -/
def sanitizeOutput : Option (List Char) → List Char
  | none => []
  | some s =>
    if s = [] then []
    else trimJs (replaceAll iframeMatch (replaceAll jsUrlMatch
      (replaceAll onHandlerMatch (replaceAll scriptMatch s))))

/-- No matcher match starts at any position of the text. -/
def matchFree (m : List Char → Option (List Char)) : List Char → Bool
  | [] => (m []).isNone
  | c :: t => (m (c :: t)).isNone && matchFree m t

/-- The text contains no occurrence of any of the four removable shapes. -/
def matchFreeAll (s : List Char) : Bool :=
  matchFree scriptMatch s && matchFree onHandlerMatch s &&
  matchFree jsUrlMatch s && matchFree iframeMatch s

/-! ## The /validate request handler -/

/-- A recorded security event: the object pushed onto securityLog by
logEvent.  The ISO timestamp string is modelled by the integer request time;
the input is truncated to 200 characters by substring(0, 200). -/
structure SecurityEvent where
  timestamp : ℤ
  userId : JValue
  input : List Char
  blocked : Bool
  reason : String
  deriving DecidableEq

/-- The event built by logEvent. -/
def mkEvent (now : ℤ) (u : JValue) (s : List Char) (d : Decision) : SecurityEvent :=
  ⟨now, u, s.take 200, d.blocked, d.reason⟩

/-- The JSON bodies the handler can send, one constructor per res.json site:
status 400 (missing fields), 429 (rate limited), 200 (decision, with
sanitizedOutput null when blocked), and 500 (internal error). -/
inductive HandlerResponse where
  | missingFields
  | rateLimited (blocked : Bool) (reason : String) (confidence : ℚ)
  | decision (blocked : Bool) (reason : String)
      (sanitizedOutput : Option (List Char)) (confidence : ℚ)
  | internalError
  deriving DecidableEq

/-- The simulated AI response template of the allowed branch. -/
def simulatedResponse (s : List Char) : List Char :=
  "This is a safe AI response to: \"".data ++ s ++ ['\"']

/-- The app.post("/validate") handler for a single request: current time,
the requesting identity's rate-limit map entry, and the three body fields.
Returns the response, the identity's map entry after the request, and the
list of events appended to securityLog by the request.  When input is a
truthy non-string, validateInput returns the invalid-format decision but
logEvent then calls input.substring on a non-string and throws, so the
catch block answers with the 500 response and nothing is logged.
checkRateLimit is written out once per branch; it is pure, so this agrees
with the single call of the source. -/
def handleValidate (now : ℤ) (st : Option RateRecord)
    (userId input category : JValue) :
    HandlerResponse × Option RateRecord × List SecurityEvent :=
  if !(truthy userId && truthy input && truthy category) then
    (.missingFields, st, [])
  else if (checkRateLimit now st).1 then
    (.rateLimited true "Rate limit exceeded. Please try again later." 1, st, [])
  else
    match input with
    | .vOther _ => (.internalError, some (checkRateLimit now st).2, [])
    | .vStr s =>
      if (validateInput (.vStr s)).blocked then
        (.decision true (validateInput (.vStr s)).reason none
            (validateInput (.vStr s)).confidence,
          some (checkRateLimit now st).2,
          [mkEvent now userId s (validateInput (.vStr s))])
      else
        (.decision false (validateInput (.vStr s)).reason
            (some (sanitizeOutput (some (simulatedResponse s))))
            (validateInput (.vStr s)).confidence,
          some (checkRateLimit now st).2,
          [mkEvent now userId s (validateInput (.vStr s))])

/-! ## Helper lemmas -/

/-- A list all of whose characters are whitespace trims to nothing. -/
lemma trimJs_eq_nil_of_all_ws {s : List Char} (h : ∀ c ∈ s, isJsWs c = true) :
    trimJs s = [] := by
  unfold trimJs dropLeading dropTrailing
  have h1 : s.dropWhile isJsWs = [] :=
    List.dropWhile_eq_nil_iff.mpr (fun c hc => h c hc)
  rw [h1]
  rfl

/-- dropWhile is the identity on a list none of whose elements satisfy p. -/
lemma dropWhile_eq_self_of_none {p : Char → Bool} {l : List Char}
    (h : ∀ c ∈ l, p c = false) : l.dropWhile p = l := by
  cases l with
  | nil => rfl
  | cons c t =>
    have := h c (List.mem_cons_self c t)
    simp [List.dropWhile_cons, this]

/-- trim is the identity on a list with no whitespace characters at all. -/
lemma trimJs_eq_self_of_no_ws {s : List Char} (h : ∀ c ∈ s, isJsWs c = false) :
    trimJs s = s := by
  unfold trimJs dropLeading dropTrailing
  rw [dropWhile_eq_self_of_none h,
    dropWhile_eq_self_of_none (fun c hc => h c (List.mem_reverse.mp hc)),
    List.reverse_reverse]

/-! ## Claims about validateInput -/

/-- C2, counterexample: the empty string has trimmed length zero, yet
validateInput classifies it as "Invalid input format", not "Empty input",
because the empty string is falsy and so is caught by the !input guard. -/
theorem empty_string_invalid_format :
    trimJs [] = [] ∧
    validateInput (.vStr []) = ⟨true, "Invalid input format", 1⟩ ∧
    validateInput (.vStr []) ≠ ⟨true, "Empty input", 1⟩ := by
  decide

/-- C2, amended: every nonempty string whose trimmed length is zero (all
all-whitespace strings) is blocked with reason "Empty input" and confidence
1.0; the empty string itself is instead caught earlier by the falsy-input
guard. -/
theorem validateInput_empty_after_trim (s : List Char)
    (hne : s ≠ []) (htrim : trimJs s = []) :
    validateInput (.vStr s) = ⟨true, "Empty input", 1⟩ := by
  simp only [validateInput, if_neg hne, htrim]
  rfl

/-- Witness for C2 at the one-space string. -/
theorem validateInput_empty_after_trim_witness :
    (([' '] : List Char) ≠ [] ∧ trimJs [' '] = []) ∧
    validateInput (.vStr [' ']) = ⟨true, "Empty input", 1⟩ :=
  ⟨⟨by decide, by decide⟩,
    validateInput_empty_after_trim [' '] (by decide) (by decide)⟩

/-- C3: a string that passes the structural checks and matches N ≥ 1 distinct
catalog patterns is blocked as "Prompt injection attempt detected" with
confidence min(0.7 + 0.1 N, 1.0) (an exact two-decimal value; N = 1 gives
4/5 = 0.80 and N = 3 gives 1 = 1.00).  countMatches counts distinct
patterns, each tested once, not occurrences. -/
theorem validateInput_injection_confidence (s : List Char) (N : ℕ)
    (hne : s ≠ []) (htrim : trimJs s ≠ []) (hlen : s.length ≤ 5000)
    (hcnt : countMatches s = N) (hpos : 1 ≤ N) :
    validateInput (.vStr s) =
      ⟨true, "Prompt injection attempt detected", min (7/10 + (N : ℚ) * (1/10)) 1⟩ := by
  have h2 : ¬((trimJs s).length = 0) := by
    simpa [List.length_eq_zero] using htrim
  have h3 : ¬(s.length > 5000) := by omega
  simp only [validateInput, if_neg hne, if_neg h2, if_neg h3, hcnt,
    if_pos (show 0 < N by omega)]
  rfl

/-- Witness for C3: "please explain jailbreak" matches exactly the pattern
jailbreak, so N = 1 and the confidence is 4/5 = 0.80. -/
theorem validateInput_injection_confidence_witness :
    countMatches "please explain jailbreak".data = 1 ∧
    validateInput (.vStr "please explain jailbreak".data) =
      ⟨true, "Prompt injection attempt detected", min (7/10 + (1 : ℚ) * (1/10)) 1⟩ :=
  ⟨by decide,
    validateInput_injection_confidence "please explain jailbreak".data 1
      (by decide) (by decide) (by decide) (by decide) (by decide)⟩

/-- C4, counterexample: a string of 5001 spaces has raw length above 5000
but is classified "Empty input", because the trimmed-emptiness check runs
before the length check. -/
theorem overlong_whitespace_empty_input :
    (List.replicate 5001 ' ').length > 5000 ∧
    validateInput (.vStr (List.replicate 5001 ' ')) = ⟨true, "Empty input", 1⟩ ∧
    validateInput (.vStr (List.replicate 5001 ' ')) ≠
      ⟨true, "Input exceeds maximum length", 1⟩ := by
  have hne : (List.replicate 5001 ' ' : List Char) ≠ [] := by
    intro h
    have := congrArg List.length h
    rw [List.length_replicate] at this
    simp at this
  have htrim : trimJs (List.replicate 5001 ' ') = [] :=
    trimJs_eq_nil_of_all_ws (fun c hc => by
      rw [List.eq_of_mem_replicate hc]; decide)
  refine ⟨by rw [List.length_replicate]; omega, ?_, ?_⟩
  · simp only [validateInput, if_neg hne, htrim]
    rfl
  · simp only [validateInput, if_neg hne, htrim]
    decide

/-- C4, amended: every string of raw length above 5000 that is nonempty
after trimming is blocked with reason "Input exceeds maximum length" and
confidence 1.0, even when it matches injection patterns: the length check
precedes and short-circuits the pattern scan.  (An overlong all-whitespace
string is instead caught by the earlier "Empty input" check.) -/
theorem validateInput_overlong (s : List Char)
    (htrim : trimJs s ≠ []) (hlen : 5000 < s.length) :
    validateInput (.vStr s) = ⟨true, "Input exceeds maximum length", 1⟩ := by
  have hne : s ≠ [] := by
    intro h
    rw [h] at hlen
    simp at hlen
  have h2 : ¬((trimJs s).length = 0) := by
    simpa [List.length_eq_zero] using htrim
  simp only [validateInput, if_neg hne, if_neg h2, if_pos hlen]

/-- Witness for C4: the word "jailbreak" (which matches a pattern) padded to
length 5001 is blocked for length, not for injection. -/
theorem validateInput_overlong_witness :
    (trimJs ("jailbreak".data ++ List.replicate 4992 'a') ≠ [] ∧
      5000 < ("jailbreak".data ++ List.replicate 4992 'a').length) ∧
    validateInput (.vStr ("jailbreak".data ++ List.replicate 4992 'a')) =
      ⟨true, "Input exceeds maximum length", 1⟩ := by
  have hnws : ∀ c ∈ "jailbreak".data ++ List.replicate 4992 'a', isJsWs c = false := by
    intro c hc
    rcases List.mem_append.mp hc with h | h
    · fin_cases h <;> decide
    · rw [List.eq_of_mem_replicate h]; decide
  have htrim : trimJs ("jailbreak".data ++ List.replicate 4992 'a') ≠ [] := by
    rw [trimJs_eq_self_of_no_ws hnws]
    decide
  have h9 : "jailbreak".data.length = 9 := by decide
  have hlen : 5000 < ("jailbreak".data ++ List.replicate 4992 'a').length := by
    rw [List.length_append, List.length_replicate, h9]
    omega
  exact ⟨⟨htrim, hlen⟩,
    validateInput_overlong ("jailbreak".data ++ List.replicate 4992 'a') htrim hlen⟩

/-- C7: a string that passes all structural checks and matches no catalog
pattern is allowed with reason "Input passed all security checks" and
confidence exactly 0.95 = 19/20. -/
theorem validateInput_clean_pass (s : List Char)
    (hne : s ≠ []) (htrim : trimJs s ≠ []) (hlen : s.length ≤ 5000)
    (hcnt : countMatches s = 0) :
    validateInput (.vStr s) = ⟨false, "Input passed all security checks", 95/100⟩ := by
  have h2 : ¬((trimJs s).length = 0) := by
    simpa [List.length_eq_zero] using htrim
  have h3 : ¬(s.length > 5000) := by omega
  simp only [validateInput, if_neg hne, if_neg h2, if_neg h3, hcnt]
  rfl

/-- Witness for C7 at the spec example question about the weather. -/
theorem validateInput_clean_pass_witness :
    countMatches "What\x27s the weather like today?".data = 0 ∧
    validateInput (.vStr "What\x27s the weather like today?".data) =
      ⟨false, "Input passed all security checks", 95/100⟩ :=
  ⟨by decide,
    validateInput_clean_pass "What\x27s the weather like today?".data
      (by decide) (by decide) (by decide) (by decide)⟩

/-! ## Claims about the rate limiter -/

/-- One checkRateLimit call keeps the stored count in [1, RATE_LIMIT]. -/
lemma checkRateLimit_count_bounds (t : ℤ) (st : Option RateRecord)
    (h : ∀ r, st = some r → 1 ≤ r.count ∧ r.count ≤ RATE_LIMIT) :
    1 ≤ (checkRateLimit t st).2.count ∧ (checkRateLimit t st).2.count ≤ RATE_LIMIT := by
  cases st with
  | none => simp [checkRateLimit, RATE_LIMIT]
  | some r =>
    have hr := h r rfl
    by_cases hw : t - r.firstRequest > RATE_WINDOW
    · simp [checkRateLimit, hw, RATE_LIMIT]
    · by_cases hc : r.count ≥ RATE_LIMIT
      · simpa [checkRateLimit, hw, hc] using hr
      · simp only [checkRateLimit, if_neg hw, if_neg hc]
        unfold RATE_LIMIT at *
        omega

/-- Every record reachable by a call trace has its count in [1, RATE_LIMIT]. -/
lemma runTrace_bounds (ts : List ℤ) (r : RateRecord) (h : runTrace ts = some r) :
    1 ≤ r.count ∧ r.count ≤ RATE_LIMIT := by
  suffices h' : ∀ st, (∀ r0, st = some r0 → 1 ≤ r0.count ∧ r0.count ≤ RATE_LIMIT) →
      ∀ r0, ts.foldl rateStep st = some r0 → 1 ≤ r0.count ∧ r0.count ≤ RATE_LIMIT by
    exact h' none (by intro r0 h0; cases h0) r h
  clear h r
  induction ts with
  | nil =>
    intro st hst r0 h0
    exact hst r0 h0
  | cons t ts ih =>
    intro st hst r0 h0
    refine ih (rateStep st t) ?_ r0 h0
    intro r1 h1
    have hb := checkRateLimit_count_bounds t st hst
    unfold rateStep at h1
    injection h1 with h1
    rw [← h1]
    exact hb

/-- C5: the stored per-identity count never exceeds RATE_LIMIT = 10 along any
call trace, and whenever the count has reached the limit inside the current
window the call returns limited and leaves the record unchanged (no
increment). -/
theorem rateLimit_count_invariant :
    (∀ (ts : List ℤ) (r : RateRecord), runTrace ts = some r → r.count ≤ RATE_LIMIT) ∧
    (∀ (now : ℤ) (r : RateRecord), RATE_LIMIT ≤ r.count →
      now - r.firstRequest ≤ RATE_WINDOW → checkRateLimit now (some r) = (true, r)) := by
  constructor
  · intro ts r h
    exact (runTrace_bounds ts r h).2
  · intro now r hc hw
    have hw' : ¬(now - r.firstRequest > RATE_WINDOW) := by omega
    simp [checkRateLimit, hw', hc]

/-- Witness for C5: a full record within the window is rejected unchanged,
and the record reached by two immediate calls has count 2 ≤ 10. -/
theorem rateLimit_count_invariant_witness :
    checkRateLimit 5 (some ⟨10, 0⟩) = (true, ⟨10, 0⟩) ∧
    (⟨2, 0⟩ : RateRecord).count ≤ RATE_LIMIT :=
  ⟨rateLimit_count_invariant.2 5 ⟨10, 0⟩ (by decide) (by decide),
    rateLimit_count_invariant.1 [0, 0] ⟨2, 0⟩ (by decide)⟩

/-- C6: starting from any reachable state, a call reinitializes the record to
count 1 and windowStart now, returning not-limited, exactly when no record
exists or strictly more than RATE_WINDOW milliseconds have elapsed; and a
call whose elapsed time equals RATE_WINDOW exactly keeps the previous
windowStart (it is treated as inside the previous window). -/
theorem checkRateLimit_reset_iff (ts : List ℤ) (now : ℤ) :
    (checkRateLimit now (runTrace ts) = (false, ⟨1, now⟩) ↔
      runTrace ts = none ∨
        ∃ r, runTrace ts = some r ∧ now - r.firstRequest > RATE_WINDOW) ∧
    (∀ r, runTrace ts = some r → now - r.firstRequest = RATE_WINDOW →
      (checkRateLimit now (some r)).2.firstRequest = r.firstRequest) := by
  constructor
  · constructor
    · intro h
      cases hst : runTrace ts with
      | none => exact Or.inl rfl
      | some r =>
        rw [hst] at h
        by_cases hw : now - r.firstRequest > RATE_WINDOW
        · exact Or.inr ⟨r, rfl, hw⟩
        · exfalso
          have hb := runTrace_bounds ts r hst
          by_cases hc : r.count ≥ RATE_LIMIT
          · simp [checkRateLimit, hw, hc] at h
          · simp only [checkRateLimit, if_neg hw, if_neg hc, Prod.mk.injEq,
              RateRecord.mk.injEq] at h
            omega
    · intro h
      rcases h with h | ⟨r, hr, hw⟩
      · rw [h]
        rfl
      · rw [hr]
        simp [checkRateLimit, hw]
  · intro r _ hw
    have hw' : ¬(now - r.firstRequest > RATE_WINDOW) := by omega
    by_cases hc : r.count ≥ RATE_LIMIT
    · simp [checkRateLimit, hw', hc]
    · simp [checkRateLimit, hw', hc]

/-- Witness for C6: after one call at time 0, a call at 70000 resets the
window, while a call at exactly 60000 keeps windowStart 0. -/
theorem checkRateLimit_reset_iff_witness :
    checkRateLimit 70000 (runTrace [0]) = (false, ⟨1, 70000⟩) ∧
    (checkRateLimit 60000 (some ⟨1, 0⟩)).2.firstRequest =
      (⟨1, 0⟩ : RateRecord).firstRequest :=
  ⟨(checkRateLimit_reset_iff [0] 70000).1.mpr
      (Or.inr ⟨⟨1, 0⟩, by decide, by decide⟩),
    (checkRateLimit_reset_iff [0] 60000).2 ⟨1, 0⟩ (by decide) (by decide)⟩

/-! ## Claims about the output sanitizer -/

/-- A global replace is the identity on match-free text. -/
lemma replaceAllAux_of_matchFree (m : List Char → Option (List Char)) :
    ∀ (fuel : ℕ) (s : List Char), matchFree m s = true → replaceAllAux m fuel s = s := by
  intro fuel
  induction fuel with
  | zero =>
    intro s _
    rfl
  | succ n ih =>
    intro s h
    cases s with
    | nil => rfl
    | cons c t =>
      unfold matchFree at h
      rw [Bool.and_eq_true] at h
      have h1 : m (c :: t) = none := Option.isNone_iff_eq_none.mp h.1
      unfold replaceAllAux
      rw [h1]
      exact congrArg (c :: ·) (ih t h.2)

/-- replaceAll is the identity on match-free text. -/
lemma replaceAll_of_matchFree (m : List Char → Option (List Char)) (s : List Char)
    (h : matchFree m s = true) : replaceAll m s = s :=
  replaceAllAux_of_matchFree m s.length s h

/-- dropWhile with the same predicate twice equals dropWhile once. -/
lemma dropWhile_ws_idem (m : List Char) :
    (m.dropWhile isJsWs).dropWhile isJsWs = m.dropWhile isJsWs := by
  induction m with
  | nil => rfl
  | cons c t ih =>
    by_cases h : isJsWs c
    · simpa [List.dropWhile_cons, h] using ih
    · simp [List.dropWhile_cons, h]

/-- Trailing-whitespace removal is idempotent. -/
lemma dropTrailing_idem (s : List Char) :
    dropTrailing (dropTrailing s) = dropTrailing s := by
  unfold dropTrailing
  rw [List.reverse_reverse, dropWhile_ws_idem]

/-- The head surviving a dropWhile fails the predicate. -/
lemma dropWhile_head_false {p : Char → Bool} :
    ∀ {l : List Char} {c : Char} {t : List Char},
      l.dropWhile p = c :: t → p c = false := by
  intro l
  induction l with
  | nil =>
    intro c t h
    cases h
  | cons a l' ih =>
    intro c t h
    rw [List.dropWhile_cons] at h
    by_cases ha : p a = true
    · rw [if_pos ha] at h
      exact ih h
    · rw [if_neg ha] at h
      cases h
      simpa using ha

/-- dropTrailing only removes characters from the end: a nonempty result
keeps the original head. -/
lemma dropTrailing_head {w : List Char} {c : Char} {t : List Char}
    (h : dropTrailing w = c :: t) : ∃ v, w = c :: (t ++ v) := by
  obtain ⟨v, hv⟩ := List.dropWhile_suffix (l := w.reverse) (p := isJsWs)
  have hw : w = dropTrailing w ++ v.reverse := by
    unfold dropTrailing
    calc w = w.reverse.reverse := (List.reverse_reverse w).symm
    _ = (v ++ w.reverse.dropWhile isJsWs).reverse := by rw [hv]
    _ = (w.reverse.dropWhile isJsWs).reverse ++ v.reverse := by
        rw [List.reverse_append]
  refine ⟨v.reverse, ?_⟩
  rw [hw, h]
  simp

/-- String.prototype.trim is idempotent. -/
lemma trimJs_idem (s : List Char) : trimJs (trimJs s) = trimJs s := by
  show dropTrailing (dropLeading (dropTrailing (dropLeading s))) =
    dropTrailing (dropLeading s)
  have hlead : dropLeading (dropTrailing (dropLeading s)) =
      dropTrailing (dropLeading s) := by
    cases hw : dropTrailing (dropLeading s) with
    | nil => rfl
    | cons c t =>
      obtain ⟨v, hv⟩ := dropTrailing_head hw
      have hc : isJsWs c = false :=
        dropWhile_head_false (p := isJsWs) (l := s) hv
      unfold dropLeading
      rw [List.dropWhile_cons, if_neg (by simp [hc])]
  rw [hlead, dropTrailing_idem]

/-- The output of sanitizeOutput is already trimmed. -/
lemma sanitizeOutput_trimmed (x : List Char) :
    trimJs (sanitizeOutput (some x)) = sanitizeOutput (some x) := by
  by_cases hx : x = []
  · subst hx
    rfl
  · have heq : sanitizeOutput (some x) =
        trimJs (replaceAll iframeMatch (replaceAll jsUrlMatch
          (replaceAll onHandlerMatch (replaceAll scriptMatch x)))) := by
      show (if x = [] then [] else _) = _
      rw [if_neg hx]
    rw [heq, trimJs_idem]

/-- sanitizeOutput is the identity on trimmed text free of all four
removable shapes. -/
lemma sanitizeOutput_of_matchFree (y : List Char) (ht : trimJs y = y)
    (h1 : matchFree scriptMatch y = true) (h2 : matchFree onHandlerMatch y = true)
    (h3 : matchFree jsUrlMatch y = true) (h4 : matchFree iframeMatch y = true) :
    sanitizeOutput (some y) = y := by
  by_cases hy : y = []
  · rw [hy]
    rfl
  · have heq : sanitizeOutput (some y) =
        if y = [] then [] else trimJs (replaceAll iframeMatch (replaceAll jsUrlMatch
          (replaceAll onHandlerMatch (replaceAll scriptMatch y)))) := rfl
    rw [heq, if_neg hy, replaceAll_of_matchFree _ _ h1, replaceAll_of_matchFree _ _ h2,
      replaceAll_of_matchFree _ _ h3, replaceAll_of_matchFree _ _ h4]
    exact ht

/-- C8: sanitizeOutput is total by construction (every input yields a
string); an absent argument and the empty string both yield the empty
string, and the spec round-trip examples evaluate exactly as stated. -/
theorem sanitizeOutput_examples :
    sanitizeOutput none = [] ∧
    sanitizeOutput (some []) = [] ∧
    sanitizeOutput (some "<script>alert(1)</script>Hello".data) = "Hello".data ∧
    sanitizeOutput (some "<div onclick=\"evil()\">Click</div>".data) =
      "<div >Click</div>".data := by
  refine ⟨rfl, rfl, ?_, ?_⟩ <;> decide

/-- C9: sanitizeOutput is idempotent on every input without nested malicious
markup, read as: the first pass leaves no residual occurrence of any of the
four removable shapes (nested markup is exactly what can reassemble such an
occurrence from removed fragments). -/
theorem sanitizeOutput_idem (x : List Char)
    (h : matchFreeAll (sanitizeOutput (some x)) = true) :
    sanitizeOutput (some (sanitizeOutput (some x))) = sanitizeOutput (some x) := by
  unfold matchFreeAll at h
  rw [Bool.and_eq_true, Bool.and_eq_true, Bool.and_eq_true] at h
  obtain ⟨⟨⟨h1, h2⟩, h3⟩, h4⟩ := h
  exact sanitizeOutput_of_matchFree _ (sanitizeOutput_trimmed x) h1 h2 h3 h4

/-- Witness for C9 at a representative input with (non-nested) malicious
markup. -/
theorem sanitizeOutput_idem_witness :
    matchFreeAll (sanitizeOutput (some "<script>alert(1)</script>Hello".data)) = true ∧
    sanitizeOutput (some (sanitizeOutput (some "<script>alert(1)</script>Hello".data))) =
      sanitizeOutput (some "<script>alert(1)</script>Hello".data) :=
  ⟨by decide, sanitizeOutput_idem "<script>alert(1)</script>Hello".data (by decide)⟩

/-! ## Claims about the /validate handler -/

/-- C1, counterexample: a well-formed request from an identity whose stored
record is full (count 10, inside the window) is rejected as rate-limited,
and the request appends NO security event: the handler returns the 429 body
before reaching logEvent, so rate-limited rejections are not recorded. -/
theorem rateLimited_not_logged_counterexample :
    (checkRateLimit 0 (some ⟨10, 0⟩)).1 = true ∧
    handleValidate 0 (some ⟨10, 0⟩) (.vStr ['u']) (.vStr ['h', 'i']) (.vStr ['c']) =
      (.rateLimited true "Rate limit exceeded. Please try again later." 1,
        some ⟨10, 0⟩, []) := by
  decide

/-- C1, amended: for every incoming well-formed request whose rate-limit
check returns limited, the handler answers with the 429 rate-limit body and
appends no security event to the log; only requests that reach validation
are logged. -/
theorem rateLimited_not_logged (now : ℤ) (st : Option RateRecord)
    (u i c : JValue) (hu : truthy u = true) (hi : truthy i = true)
    (hc : truthy c = true) (hlim : (checkRateLimit now st).1 = true) :
    handleValidate now st u i c =
      (.rateLimited true "Rate limit exceeded. Please try again later." 1, st, []) := by
  unfold handleValidate
  rw [hu, hi, hc, hlim]
  rfl

/-- Witness for C1 (amended) at a concrete full-window request. -/
theorem rateLimited_not_logged_witness :
    ((checkRateLimit 0 (some ⟨10, 0⟩)).1 = true ∧
      truthy (.vStr ['u']) = true) ∧
    handleValidate 0 (some ⟨10, 0⟩) (.vStr ['u']) (.vStr ['h']) (.vStr ['c']) =
      (.rateLimited true "Rate limit exceeded. Please try again later." 1,
        some ⟨10, 0⟩, []) :=
  ⟨⟨by decide, by decide⟩,
    rateLimited_not_logged 0 (some ⟨10, 0⟩) (.vStr ['u']) (.vStr ['h']) (.vStr ['c'])
      (by decide) (by decide) (by decide) (by decide)⟩

/-- C10: the category field never influences the outcome.  Two well-formed
requests (all three fields truthy) identical except for their category
values produce identical responses (decision, reason, confidence, sanitized
output), identical rate-limit state, and identical log appends: the handler
checks category only for presence. -/
theorem category_noninterference (now : ℤ) (st : Option RateRecord)
    (u i c c' : JValue) (hu : truthy u = true) (hi : truthy i = true)
    (hc : truthy c = true) (hc' : truthy c' = true) :
    handleValidate now st u i c = handleValidate now st u i c' := by
  unfold handleValidate
  rw [hu, hi, hc, hc']

/-- Witness for C10 with two different truthy categories. -/
theorem category_noninterference_witness :
    (truthy (.vStr ['a']) = true ∧ truthy (.vStr ['b']) = true) ∧
    handleValidate 0 none (.vStr ['u']) (.vStr ['h']) (.vStr ['a']) =
      handleValidate 0 none (.vStr ['u']) (.vStr ['h']) (.vStr ['b']) :=
  ⟨⟨by decide, by decide⟩,
    category_noninterference 0 none (.vStr ['u']) (.vStr ['h']) (.vStr ['a']) (.vStr ['b'])
      (by decide) (by decide) (by decide) (by decide)⟩

end AiService
